import Mathlib

/-!
Verification model of the persona-creator extraction core
(`src/app/api/extract/route.ts` and the second copy of the extract route).

The dynamically typed JavaScript values flowing through the route are
modelled by the inductive `Json` below.  Numeric literals are modelled as
integers (the route's own data never carries fractional numbers); absent
object properties (JavaScript `undefined`) are modelled by `Option Json`
with `none` standing for `undefined`.
-/

/-- A parsed JSON value, as produced by `JSON.parse` in the route. -/
inductive Json where
  | null
  | bool (b : Bool)
  | num (n : Int)
  | str (s : String)
  | arr (xs : List Json)
  | obj (fields : List (String × Json))

/- JavaScript `String(v)`: an array renders via `Array.prototype.join(",")`
in which `null` elements render as the empty string; `jsJoin` renders a
list of values that way, mutually with `jsToString`. -/
mutual

def jsToString : Json → String
  | Json.null => "null"
  | Json.bool b => cond b "true" "false"
  | Json.num n => toString n
  | Json.str s => s
  | Json.arr xs => jsJoin xs
  | Json.obj _ => "[object Object]"

def jsJoin : List Json → String
  | [] => ""
  | [Json.null] => ""
  | [x] => jsToString x
  | Json.null :: xs => "," ++ jsJoin xs
  | x :: xs => jsToString x ++ "," ++ jsJoin xs

end

/-- JavaScript truthiness of a JSON value (`Boolean(v)`): `null`, `false`,
`0` and `""` are falsy; every array and object is truthy. -/
def jsTruthy : Json → Bool
  | Json.null => false
  | Json.bool b => b
  | Json.num n => n != 0
  | Json.str s => s != ""
  | Json.arr _ => true
  | Json.obj _ => true

/-- Property access `o[k]` on a parsed JSON object: `none` models
JavaScript `undefined`.  `JSON.parse` keeps the last of duplicate keys,
so the fold takes the last binding. -/
def getProp (fields : List (String × Json)) (k : String) : Option Json :=
  fields.foldl (fun acc p => if p.1 == k then some p.2 else acc) none

/-- Optional chaining `v?.k`: `undefined`/`null` receivers give
`undefined`, as does property access on any non-object value. -/
def getPropOpt (v : Option Json) (k : String) : Option Json :=
  match v with
  | some (Json.obj fields) => getProp fields k
  | _ => none

/-- Nullish coalescing `v ?? []` as used for the nested skill lists. -/
def nullishOrEmptyArr (v : Option Json) : Json :=
  match v with
  | some Json.null => Json.arr []
  | some j => j
  | none => Json.arr []

/-- JavaScript `v || d` (used for the scalar fields of
`validatedInsights`): the raw value when truthy, otherwise the default. -/
def jsOr (v : Option Json) (d : Json) : Json :=
  match v with
  | some j => if jsTruthy j then j else d
  | none => d

/-- ASCII whitespace, as matched by `\s` in the route's regexes and
stripped by `String.prototype.trim` (the Unicode-only space characters
play no role in this model). -/
def isWsChar (c : Char) : Bool :=
  c == ' ' || c == '\x09' || c == '\x0a' || c == '\x0d' || c == '\x0b' || c == '\x0c'

/-- JavaScript `String.prototype.trim`: strip leading and trailing
whitespace. -/
def jsTrim (s : String) : String :=
  String.mk (((s.data.dropWhile isWsChar).reverse.dropWhile isWsChar).reverse)

/-- The `normalizedArray` helper of `src/app/api/extract/route.ts`
(lines 296-311): arrays are mapped elementwise to trimmed string form and
empty strings are dropped by `filter(Boolean)`; a string that trims
non-empty becomes a singleton of its trimmed self; everything else
(absent, null, wrong type, blank string) becomes the empty list. -/
def normalizedArray (value : Option Json) : List String :=
  match value with
  | some (Json.arr xs) =>
      (xs.map (fun item => jsTrim (jsToString item))).filter (fun s => s != "")
  | some (Json.str s) => if jsTrim s != "" then [jsTrim s] else []
  | _ => []

/-- The `normalizedArray` helper of the second copy of the extract route
(`src/unnamed/part_003`, lines 230-238): identical except that array
elements are stringified WITHOUT trimming before `filter(Boolean)`. -/
def normalizedArray003 (value : Option Json) : List String :=
  match value with
  | some (Json.arr xs) =>
      (xs.map (fun item => jsToString item)).filter (fun s => s != "")
  | some (Json.str s) => if jsTrim s != "" then [jsTrim s] else []
  | _ => []

example : normalizedArray
    (some (Json.arr [Json.str "  Python ", Json.str "", Json.num 42]))
    = ["Python", "42"] := by decide

example : normalizedArray003
    (some (Json.arr [Json.str "  Python ", Json.str "", Json.num 42]))
    = ["  Python ", "42"] := by decide

example : normalizedArray (some (Json.str "Single paragraph."))
    = ["Single paragraph."] := by decide

/-- The per-field pattern `arr.length ? arr : [sentinel]` that every list
field of `validatedInsights` applies to its `normalizedArray` result
(route.ts lines 313-355 repeat it verbatim per field). -/
def listField (value : Option Json) (sentinel : String) : List String :=
  let arr := normalizedArray value
  if arr.length != 0 then arr else [sentinel]

/-- The nested skills object of a `validatedInsights` record. -/
structure RequiredSkills where
  technical : List String
  soft_skills : List String

/-- The `validatedInsights` record shape (route.ts lines 313-355), the
persisted CanonicalInsight.  The three scalar fields keep the dynamic
type of the raw value because `v || default` passes any truthy value
through unchanged. -/
structure CanonicalInsight where
  about_section : List String
  responsibilities_section : List String
  qualifications_section : List String
  role_title : Json
  seniority_level : Json
  industry_context : Json
  core_responsibilities : List String
  required_skills : RequiredSkills
  tools_technologies : List String
  key_success_metrics : List String
  hiring_signals : List String
  collaboration_aspects : List String
  extracted_at : String
  sources_analyzed : Nat

/-- The Insight Normalizer: the `validatedInsights` expression of
route.ts lines 313-355, over the parsed `insights` object (given as its
field list), the request's `job_posting_ids`, and the current timestamp
(`new Date().toISOString()` is impure, so it is a parameter here). -/
def validatedInsights (insights : List (String × Json))
    (job_posting_ids : List String) (now : String) : CanonicalInsight :=
  { about_section :=
      listField (getProp insights "about_section") "Not specified in posting"
    responsibilities_section :=
      listField (getProp insights "responsibilities_section") "Not specified in posting"
    qualifications_section :=
      listField (getProp insights "qualifications_section") "Not specified in posting"
    role_title := jsOr (getProp insights "role_title") (Json.str "Unknown Role")
    seniority_level := jsOr (getProp insights "seniority_level") (Json.str "mid")
    industry_context := jsOr (getProp insights "industry_context") (Json.str "General")
    core_responsibilities :=
      listField (getProp insights "core_responsibilities") "Responsibilities not specified"
    required_skills :=
      { technical :=
          listField
            (some (nullishOrEmptyArr
              (getPropOpt (getProp insights "required_skills") "technical")))
            "Not specified in posting"
        soft_skills :=
          listField
            (some (nullishOrEmptyArr
              (getPropOpt (getProp insights "required_skills") "soft_skills")))
            "Not specified in posting" }
    tools_technologies :=
      listField (getProp insights "tools_technologies") "Not specified in posting"
    key_success_metrics :=
      listField (getProp insights "key_success_metrics") "Not specified in posting"
    hiring_signals :=
      listField (getProp insights "hiring_signals") "Not specified in posting"
    collaboration_aspects :=
      listField (getProp insights "collaboration_aspects") "Not specified in posting"
    extracted_at := now
    sources_analyzed := job_posting_ids.length }

/-- A document returned by the vector store, reduced to the metadata the
retriever's filter reads (`doc.metadata?.user_id`,
`doc.metadata?.job_posting_id`); `none` models an absent key or absent
metadata. -/
structure Doc where
  content : String
  user_id : Option String
  job_posting_id : Option String
deriving DecidableEq

/-- The filter predicate inside `filteredRetriever.getRelevantDocuments`
(route.ts lines 186-193): strict equality on the user id, and membership
of the doc's job id in `job_posting_ids` unless that list is empty. -/
def scopeMatches (user_id : String) (job_posting_ids : List String) (d : Doc) : Bool :=
  let matchesUser := d.user_id == some user_id
  let matchesJob :=
    job_posting_ids.isEmpty ||
      (match d.job_posting_id with
       | some j => job_posting_ids.contains j
       | none => false)
  matchesUser && matchesJob

/-- `filteredRetriever.getRelevantDocuments` (route.ts lines 184-206)
given the base retriever's candidates `docs`: filter to the scope; if
nothing survives, fall back to the first 20 unfiltered candidates and
warn (the Bool is `true` exactly when the fallback branch with its
scoping-failed diagnostic ran), else return the first 20 filtered
candidates. -/
def getRelevantDocuments (docs : List Doc) (user_id : String)
    (job_posting_ids : List String) : List Doc × Bool :=
  let filtered := docs.filter (scopeMatches user_id job_posting_ids)
  if filtered.length == 0 then
    (docs.take 20, true)
  else
    (filtered.take 20, false)

/- Characters that the surface syntax of this file spells via their code
points. -/

def cQuote : Char := Char.ofNat 34

def cBackslash : Char := Char.ofNat 92

def cBacktick : Char := Char.ofNat 96

def cLBrace : Char := Char.ofNat 123

def cRBrace : Char := Char.ofNat 125

/-- True when the text begins with a closing fence after zero or more
whitespace characters — the `\s*` + closing-backticks tail of the
route's fence regexes (whitespace never contains a backtick, so checking
the fence at each whitespace-skip position is exact). -/
def closesFence : List Char → Bool
  | [] => false
  | c :: rest =>
    (c == cBacktick &&
      (match rest with
       | d :: e :: _ => d == cBacktick && e == cBacktick
       | _ => false))
    || (isWsChar c && closesFence rest)

/-- The lazy capture group `([\s\S]*?)` before `\s*` and the closing
fence: the SHORTEST prefix whose remainder closes the fence, which is
what a lazy quantifier commits to; `none` when no closing fence exists. -/
def lazyCapture : List Char → Option (List Char)
  | [] => none
  | c :: rest =>
    if closesFence (c :: rest) then some []
    else (lazyCapture rest).map (fun mid => c :: mid)

/-- Attempt the fence regex at one start position: the literal opener,
then greedily skipped whitespace (`\s*` — maximal, since the lazy group
can absorb anything the backtracker would hand back), then the lazy
capture. -/
def tryFenceAt (opener : List Char) (s : List Char) : Option (List Char) :=
  if List.isPrefixOf opener s then
    lazyCapture ((s.drop opener.length).dropWhile isWsChar)
  else none

/-- `String.prototype.match` with a non-global regex: the capture of the
LEFTMOST position at which the whole pattern matches. -/
def findFenced (opener : List Char) : List Char → Option (List Char)
  | [] => tryFenceAt opener []
  | c :: rest =>
    match tryFenceAt opener (c :: rest) with
    | some mid => some mid
    | none => findFenced opener rest

/-- The code-fence stripping of route.ts lines 270-276: first try
`/three-backticks json \s* lazy-capture \s* three-backticks/`, then the
same without the language tag, and keep the whole content when neither
regex matches. -/
def extractJsonContent (s : String) : String :=
  match findFenced ("```json").data s.data with
  | some mid => String.mk mid
  | none =>
    match findFenced ("```").data s.data with
    | some mid => String.mk mid
    | none => s

/- A JSON parser modelling `JSON.parse`.  Recursion is fueled; the fuel
chosen in `parseJson` is an upper bound on the possible nesting, so fuel
exhaustion is unreachable from `parseJson`.  One modelling restriction:
numeric literals must be integers — fraction/exponent forms are rejected
rather than approximated, since `Json.num` carries an `Int`. -/

/-- JSON insignificant whitespace (space, tab, line feed, carriage
return). -/
def isJsonWs (c : Char) : Bool :=
  c == ' ' || c == '\x09' || c == '\x0a' || c == '\x0d'

def skipWs (s : List Char) : List Char := s.dropWhile isJsonWs

def digitVal (c : Char) : Nat := c.toNat - 48

/-- Consume a run of decimal digits, extending the accumulator. -/
def parseDigits : List Char → Nat → Nat × List Char
  | [], acc => (acc, [])
  | c :: rest, acc =>
    if c.isDigit then parseDigits rest (acc * 10 + digitVal c) else (acc, c :: rest)

/-- Parse the digits of a numeric literal (sign already consumed). -/
def parseNumberTail (neg : Bool) (s : List Char) :
    Except String (Json × List Char) :=
  match s with
  | [] => Except.error "Unexpected end of JSON input"
  | c :: rest =>
    if c.isDigit then
      if c == '0' && (match rest with | d :: _ => d.isDigit | [] => false) then
        Except.error "Unexpected number in JSON"
      else
        let p := parseDigits rest (digitVal c)
        let j := Json.num (if neg then -(Int.ofNat p.1) else Int.ofNat p.1)
        match p.2 with
        | [] => Except.ok (j, [])
        | d :: _ =>
          if d == '.' || d == 'e' || d == 'E' then
            Except.error "Non-integer numeric literals are outside this model"
          else Except.ok (j, p.2)
    else Except.error "Unexpected token in JSON"

/-- Hexadecimal digit value, for Unicode escapes. -/
def hexVal (c : Char) : Option Nat :=
  if c.isDigit then some (c.toNat - 48)
  else if 'a' ≤ c && c ≤ 'f' then some (c.toNat - 87)
  else if 'A' ≤ c && c ≤ 'F' then some (c.toNat - 55)
  else none

/-- Parse the body of a JSON string literal (opening quote already
consumed), returning its characters and the rest of the input. -/
def parseStringBody : List Char → Except String (List Char × List Char)
  | [] => Except.error "Unterminated string in JSON"
  | c :: rest =>
    if c == cQuote then Except.ok ([], rest)
    else if c == cBackslash then
      match rest with
      | [] => Except.error "Unterminated string in JSON"
      | 'u' :: h1 :: h2 :: h3 :: h4 :: rest2 =>
        match hexVal h1, hexVal h2, hexVal h3, hexVal h4 with
        | some a, some b, some v3, some v4 =>
          (parseStringBody rest2).map (fun p =>
            (Char.ofNat (((a * 16 + b) * 16 + v3) * 16 + v4) :: p.1, p.2))
        | _, _, _, _ => Except.error "Bad Unicode escape in JSON"
      | e :: rest2 =>
        let esc : Option Char :=
          if e == cQuote then some cQuote
          else if e == cBackslash then some cBackslash
          else if e == '/' then some '/'
          else if e == 'n' then some '\x0a'
          else if e == 't' then some '\x09'
          else if e == 'r' then some '\x0d'
          else if e == 'b' then some '\x08'
          else if e == 'f' then some '\x0c'
          else none
        match esc with
        | some ch => (parseStringBody rest2).map (fun p => (ch :: p.1, p.2))
        | none => Except.error "Bad escaped character in JSON"
    else if c.toNat < 32 then
      Except.error "Bad control character in JSON string"
    else
      (parseStringBody rest).map (fun p => (c :: p.1, p.2))

mutual

/-- Parse one JSON value. -/
def parseValue : Nat → List Char → Except String (Json × List Char)
  | 0, _ => Except.error "JSON nesting exceeds model fuel"
  | Nat.succ fuel, s =>
    match skipWs s with
    | [] => Except.error "Unexpected end of JSON input"
    | c :: rest =>
      if c == cLBrace then
        match skipWs rest with
        | [] => Except.error "Unexpected end of JSON input"
        | d :: rest2 =>
          if d == cRBrace then Except.ok (Json.obj [], rest2)
          else
            (parseObjItems fuel (d :: rest2)).map (fun p => (Json.obj p.1, p.2))
      else if c == '[' then
        match skipWs rest with
        | [] => Except.error "Unexpected end of JSON input"
        | d :: rest2 =>
          if d == ']' then Except.ok (Json.arr [], rest2)
          else
            (parseArrItems fuel (d :: rest2)).map (fun p => (Json.arr p.1, p.2))
      else if c == cQuote then
        (parseStringBody rest).map (fun p => (Json.str (String.mk p.1), p.2))
      else if c == 't' then
        match rest with
        | 'r' :: 'u' :: 'e' :: rem => Except.ok (Json.bool true, rem)
        | _ => Except.error "Unexpected token in JSON"
      else if c == 'f' then
        match rest with
        | 'a' :: 'l' :: 's' :: 'e' :: rem => Except.ok (Json.bool false, rem)
        | _ => Except.error "Unexpected token in JSON"
      else if c == 'n' then
        match rest with
        | 'u' :: 'l' :: 'l' :: rem => Except.ok (Json.null, rem)
        | _ => Except.error "Unexpected token in JSON"
      else if c == '-' then parseNumberTail true rest
      else if c.isDigit then parseNumberTail false (c :: rest)
      else Except.error "Unexpected token in JSON"

/-- Parse the comma-separated items of a non-empty JSON array. -/
def parseArrItems : Nat → List Char → Except String (List Json × List Char)
  | 0, _ => Except.error "JSON nesting exceeds model fuel"
  | Nat.succ fuel, s =>
    match parseValue fuel s with
    | Except.error m => Except.error m
    | Except.ok (v, rem) =>
      match skipWs rem with
      | [] => Except.error "Unexpected end of JSON input"
      | c :: rest =>
        if c == ']' then Except.ok ([v], rest)
        else if c == ',' then
          (parseArrItems fuel rest).map (fun p => (v :: p.1, p.2))
        else Except.error "Expected comma or closing bracket in JSON array"

/-- Parse the comma-separated entries of a non-empty JSON object. -/
def parseObjItems : Nat → List Char →
    Except String (List (String × Json) × List Char)
  | 0, _ => Except.error "JSON nesting exceeds model fuel"
  | Nat.succ fuel, s =>
    match skipWs s with
    | [] => Except.error "Unexpected end of JSON input"
    | c :: rest =>
      if c == cQuote then
        match parseStringBody rest with
        | Except.error m => Except.error m
        | Except.ok (kcs, rem) =>
          match skipWs rem with
          | [] => Except.error "Unexpected end of JSON input"
          | d :: rest2 =>
            if d == ':' then
              match parseValue fuel rest2 with
              | Except.error m => Except.error m
              | Except.ok (v, rem2) =>
                match skipWs rem2 with
                | [] => Except.error "Unexpected end of JSON input"
                | e :: rest3 =>
                  if e == cRBrace then
                    Except.ok ([(String.mk kcs, v)], rest3)
                  else if e == ',' then
                    (parseObjItems fuel rest3).map (fun p =>
                      ((String.mk kcs, v) :: p.1, p.2))
                  else Except.error "Expected comma or closing brace in JSON object"
            else Except.error "Expected colon in JSON object"
      else Except.error "Expected string key in JSON object"

end

/-- `JSON.parse`: one value, then only whitespace may remain.  The fuel
`2 * length + 4` exceeds the deepest call chain a string of that length
can drive (each unit of nesting consumes at least one character). -/
def parseJson (s : String) : Except String Json :=
  match parseValue (2 * s.length + 4) s.data with
  | Except.error m => Except.error m
  | Except.ok (j, rem) =>
    if (skipWs rem).isEmpty then Except.ok j
    else Except.error "Unexpected non-whitespace character after JSON data"

/-- The Response Parser: the parse block of route.ts lines 268-293.  On
failure the error carries the raw content and the parse error message,
exactly the `raw_content`/`parse_error` fields of the 500 payload. -/
def responseParse (extractedContent : String) :
    Except (String × String) Json :=
  match parseJson (extractJsonContent extractedContent) with
  | Except.ok j => Except.ok j
  | Except.error m => Except.error (extractedContent, m)

/-- Field list of a parsed top-level value, as property access sees it:
objects expose their fields, primitives and arrays expose none of the
insight field names (reading them yields `undefined`). -/
def jsonFields : Json → List (String × Json)
  | Json.obj fields => fields
  | _ => []

/-- Outcome of the POST handler from the point where the agent's raw
output is in hand (route.ts lines 268-384): either the parse-failure 500
payload, or a thrown TypeError (property access on a parsed `null`)
caught by the outer handler, or the insert of the validated insights.
Only `persisted` reaches the `role_insights` insert. -/
inductive ExtractOutcome where
  | parseFailure (raw_content : String) (parse_error : String)
  | runtimeFailure
  | persisted (record : CanonicalInsight)

/-- The POST handler's tail: parse the raw content, then normalize and
persist; a parse failure returns the diagnostic payload before the
normalizer or the insert can run. -/
def postExtract (extractedContent : String) (job_posting_ids : List String)
    (now : String) : ExtractOutcome :=
  match responseParse extractedContent with
  | Except.error e => ExtractOutcome.parseFailure e.1 e.2
  | Except.ok Json.null => ExtractOutcome.runtimeFailure
  | Except.ok j =>
      ExtractOutcome.persisted (validatedInsights (jsonFields j) job_posting_ids now)

/-- The invariant the claims state for every persisted list field:
non-empty, and every element a non-empty string. -/
def goodList (l : List String) : Prop :=
  1 ≤ l.length ∧ ∀ s ∈ l, s ≠ ""

theorem normalizedArray_mem (value : Option Json) :
    ∀ s ∈ normalizedArray value, s ≠ "" := by
  intro s hs
  match value with
  | none => simp [normalizedArray] at hs
  | some Json.null => simp [normalizedArray] at hs
  | some (Json.bool b) => simp [normalizedArray] at hs
  | some (Json.num n) => simp [normalizedArray] at hs
  | some (Json.obj fields) => simp [normalizedArray] at hs
  | some (Json.arr xs) =>
    simp only [normalizedArray, List.mem_filter] at hs
    simpa using hs.2
  | some (Json.str t) =>
    simp only [normalizedArray] at hs
    by_cases h : jsTrim t != ""
    · rw [if_pos h] at hs
      simp only [List.mem_singleton] at hs
      subst hs
      simpa using h
    · rw [if_neg h] at hs
      simp at hs

theorem listField_good (value : Option Json) (sentinel : String)
    (hd : sentinel ≠ "") : goodList (listField value sentinel) := by
  unfold listField goodList
  by_cases h : (normalizedArray value).length != 0
  · rw [if_pos h]
    refine ⟨?_, normalizedArray_mem value⟩
    have : (normalizedArray value).length ≠ 0 := by simpa using h
    omega
  · rw [if_neg h]
    refine ⟨by simp, ?_⟩
    intro s hs
    simp only [List.mem_singleton] at hs
    subst hs
    exact hd

/-- C1: the Insight Normalizer is total — for every input mapping
(including the empty object, null-valued fields, wrong-typed fields,
empty arrays, and arrays with non-string elements) it produces a
CanonicalInsight (totality is by construction: `validatedInsights` is a
total function) in which every one of the ten list fields has length at
least 1 and contains only non-empty strings. -/
theorem C1_normalizer_totality (insights : List (String × Json))
    (job_posting_ids : List String) (now : String) :
    goodList ((validatedInsights insights job_posting_ids now).about_section) ∧
    goodList ((validatedInsights insights job_posting_ids now).responsibilities_section) ∧
    goodList ((validatedInsights insights job_posting_ids now).qualifications_section) ∧
    goodList ((validatedInsights insights job_posting_ids now).core_responsibilities) ∧
    goodList ((validatedInsights insights job_posting_ids now).required_skills.technical) ∧
    goodList ((validatedInsights insights job_posting_ids now).required_skills.soft_skills) ∧
    goodList ((validatedInsights insights job_posting_ids now).tools_technologies) ∧
    goodList ((validatedInsights insights job_posting_ids now).key_success_metrics) ∧
    goodList ((validatedInsights insights job_posting_ids now).hiring_signals) ∧
    goodList ((validatedInsights insights job_posting_ids now).collaboration_aspects) := by
  refine ⟨?_, ?_, ?_, ?_, ?_, ?_, ?_, ?_, ?_, ?_⟩ <;>
    exact listField_good _ _ (by decide)

/-- C2: when the store returned at least one candidate but the
owner/document filter retained none of them, the retriever returns the
first 20 unfiltered candidates in store order and raises the
scoping-failed diagnostic. -/
theorem C2_retriever_fallback (docs : List Doc) (user_id : String)
    (job_posting_ids : List String) (_hne : docs ≠ [])
    (hfilt : docs.filter (scopeMatches user_id job_posting_ids) = []) :
    getRelevantDocuments docs user_id job_posting_ids = (docs.take 20, true) := by
  simp [getRelevantDocuments, hfilt]

/-- Witness for C2 at a store with one candidate owned by another user. -/
theorem C2_retriever_fallback_witness :
    getRelevantDocuments [⟨"text", some "u2", some "d1"⟩] "u1" ["d1"]
      = ([⟨"text", some "u2", some "d1"⟩].take 20, true) :=
  C2_retriever_fallback [⟨"text", some "u2", some "d1"⟩] "u1" ["d1"]
    (by decide) (by decide)

/-- C3 counterexample: with an EMPTY store result the code still takes
the fallback branch, so the scoping-failed diagnostic (second component
`true`) fires even though absence of data, not filtering, caused the
empty result — contradicting the claim that the signal is emitted only
when filtering caused it. -/
theorem C3_counterexample :
    getRelevantDocuments ([] : List Doc) "u1" ["d1"] = ([], true) := by decide

/-- C3 amended: when the underlying store returns zero candidates the
retriever does return the empty list (the fallback slice of an empty
candidate list is empty), but the fallback branch and its scoping-failed
diagnostic run anyway — the signal does not distinguish absence of data
from filtering loss. -/
theorem C3_empty_store (user_id : String) (job_posting_ids : List String) :
    getRelevantDocuments ([] : List Doc) user_id job_posting_ids = ([], true) := by
  simp [getRelevantDocuments]

/-- C4: list-field coercion — the P3 example, and the full trichotomy of
`normalizedArray`: arrays map elementwise to trimmed string form with
empties dropped (order preserved, duplicates kept), strings that trim
non-empty become singletons, and every other value (absent, null,
boolean, number, object, blank string) becomes the empty list. -/
theorem C4_list_coercion :
    normalizedArray (some (Json.arr [Json.str "  Python ", Json.str "", Json.num 42]))
      = ["Python", "42"]
    ∧ (∀ xs, normalizedArray (some (Json.arr xs))
        = (xs.map (fun item => jsTrim (jsToString item))).filter (fun s => s != ""))
    ∧ (∀ s, normalizedArray (some (Json.str s))
        = if jsTrim s != "" then [jsTrim s] else [])
    ∧ normalizedArray none = []
    ∧ normalizedArray (some Json.null) = []
    ∧ (∀ b, normalizedArray (some (Json.bool b)) = [])
    ∧ (∀ n, normalizedArray (some (Json.num n)) = [])
    ∧ (∀ fields, normalizedArray (some (Json.obj fields)) = []) :=
  ⟨by decide, fun _ => rfl, fun _ => rfl, rfl, rfl,
   fun _ => rfl, fun _ => rfl, fun _ => rfl⟩

/-- C5 counterexample: the normalizer performs no enum validation on
`seniority_level` — the invalid raw value "banana" passes through
unchanged, so the persisted value is NOT one of the five enumerated
levels. -/
theorem C5_counterexample :
    (validatedInsights [("seniority_level", Json.str "banana")] [] "t").seniority_level
      = Json.str "banana"
    ∧ "banana" ∉ ["entry", "mid", "senior", "lead", "executive"] :=
  ⟨rfl, by decide⟩

/-- C5 amended: `seniority_level` is the raw value whenever that value is
truthy — with no validation against the five enumerated levels — and is
defaulted to "mid" exactly when the field is absent or falsy. -/
theorem C5_seniority_rule (insights : List (String × Json))
    (job_posting_ids : List String) (now : String) :
    (getProp insights "seniority_level" = none →
      (validatedInsights insights job_posting_ids now).seniority_level = Json.str "mid")
    ∧ (∀ j, getProp insights "seniority_level" = some j → jsTruthy j = false →
      (validatedInsights insights job_posting_ids now).seniority_level = Json.str "mid")
    ∧ (∀ j, getProp insights "seniority_level" = some j → jsTruthy j = true →
      (validatedInsights insights job_posting_ids now).seniority_level = j) := by
  refine ⟨?_, ?_, ?_⟩
  · intro h
    show jsOr (getProp insights "seniority_level") (Json.str "mid") = Json.str "mid"
    rw [h]
    rfl
  · intro j h ht
    show jsOr (getProp insights "seniority_level") (Json.str "mid") = Json.str "mid"
    rw [h]
    simp [jsOr, ht]
  · intro j h ht
    show jsOr (getProp insights "seniority_level") (Json.str "mid") = j
    rw [h]
    simp [jsOr, ht]

/-- Witness for C5's amended rule: a truthy raw value ("senior") passes
through. -/
theorem C5_seniority_rule_witness :
    (validatedInsights [("seniority_level", Json.str "senior")] [] "t").seniority_level
      = Json.str "senior" :=
  (C5_seniority_rule [("seniority_level", Json.str "senior")] [] "t").2.2
    (Json.str "senior") rfl rfl

/-- C9: normalizing the empty mapping yields the distinct sentinel for
`core_responsibilities` and "Not specified in posting" for every other
list field. -/
theorem C9_sentinel_distinction :
    (validatedInsights [] [] "t").core_responsibilities
      = ["Responsibilities not specified"]
    ∧ (validatedInsights [] [] "t").about_section = ["Not specified in posting"]
    ∧ (validatedInsights [] [] "t").responsibilities_section = ["Not specified in posting"]
    ∧ (validatedInsights [] [] "t").qualifications_section = ["Not specified in posting"]
    ∧ (validatedInsights [] [] "t").required_skills.technical = ["Not specified in posting"]
    ∧ (validatedInsights [] [] "t").required_skills.soft_skills = ["Not specified in posting"]
    ∧ (validatedInsights [] [] "t").tools_technologies = ["Not specified in posting"]
    ∧ (validatedInsights [] [] "t").key_success_metrics = ["Not specified in posting"]
    ∧ (validatedInsights [] [] "t").hiring_signals = ["Not specified in posting"]
    ∧ (validatedInsights [] [] "t").collaboration_aspects = ["Not specified in posting"] :=
  ⟨rfl, rfl, rfl, rfl, rfl, rfl, rfl, rfl, rfl, rfl⟩

/-- C6: the Response Parser strips an optional fenced code block (with or
without a language tag, tolerating surrounding prose) before parsing as
JSON: the fenced example and the bare example both yield the mapping
with a = 1, and non-JSON input fails with the diagnostic payload
carrying the raw string and the parse error message. -/
theorem C6_response_parse :
    responseParse "```json\n\x7b\"a\":1\x7d\n```"
      = Except.ok (Json.obj [("a", Json.num 1)])
    ∧ responseParse "\x7b\"a\":1\x7d"
      = Except.ok (Json.obj [("a", Json.num 1)])
    ∧ responseParse "Here it is: ```json\n\x7b\"a\":1\x7d\n``` done"
      = Except.ok (Json.obj [("a", Json.num 1)])
    ∧ responseParse "not json"
      = Except.error ("not json", "Unexpected token in JSON") :=
  ⟨rfl, rfl, rfl, rfl⟩

/-- C7: parse-failure atomicity — whenever the raw agent output fails to
parse, the request resolves to the parse-failure payload (which carries
the raw output itself and the parse error message) and the persisted
outcome is unreachable: the normalizer and the database insert never
run on this path. -/
theorem C7_parse_failure_atomicity (extractedContent : String)
    (job_posting_ids : List String) (now : String) (e : String × String)
    (h : responseParse extractedContent = Except.error e) :
    postExtract extractedContent job_posting_ids now
      = ExtractOutcome.parseFailure extractedContent e.2
    ∧ e.1 = extractedContent
    ∧ ∀ record, postExtract extractedContent job_posting_ids now
        ≠ ExtractOutcome.persisted record := by
  have he : e.1 = extractedContent := by
    unfold responseParse at h
    cases hp : parseJson (extractJsonContent extractedContent) with
    | ok j => rw [hp] at h; exact absurd h (by simp)
    | error m =>
      rw [hp] at h
      simp only [Except.error.injEq] at h
      rw [← h]
  have hpost : postExtract extractedContent job_posting_ids now
      = ExtractOutcome.parseFailure e.1 e.2 := by
    unfold postExtract
    rw [h]
  refine ⟨by rw [hpost, he], he, ?_⟩
  intro record hr
  rw [hpost] at hr
  exact ExtractOutcome.noConfusion hr

/-- Witness for C7 at the raw output "not json". -/
theorem C7_parse_failure_atomicity_witness :
    postExtract "not json" [] "t"
      = ExtractOutcome.parseFailure "not json" "Unexpected token in JSON"
    ∧ ∀ record, postExtract "not json" [] "t" ≠ ExtractOutcome.persisted record := by
  have h := C7_parse_failure_atomicity "not json" [] "t"
      ("not json", "Unexpected token in JSON") rfl
  exact ⟨h.1, h.2.2⟩

/-- C8: when at least one candidate survives the scope filter, the
retriever returns exactly the scope-matching candidates in store order,
truncated to the first 20, the result length is at most 20, and the
degradation signal is not raised. -/
theorem C8_retriever_scoping (docs : List Doc) (user_id : String)
    (job_posting_ids : List String)
    (hfilt : docs.filter (scopeMatches user_id job_posting_ids) ≠ []) :
    getRelevantDocuments docs user_id job_posting_ids
      = ((docs.filter (scopeMatches user_id job_posting_ids)).take 20, false)
    ∧ (getRelevantDocuments docs user_id job_posting_ids).1.length ≤ 20 := by
  have h0 : (docs.filter (scopeMatches user_id job_posting_ids)).length ≠ 0 := by
    simpa [List.length_eq_zero] using hfilt
  have heq : getRelevantDocuments docs user_id job_posting_ids
      = ((docs.filter (scopeMatches user_id job_posting_ids)).take 20, false) := by
    simp [getRelevantDocuments, h0]
  refine ⟨heq, ?_⟩
  rw [heq]
  simp [Nat.min_le_left]

/-- Witness for C8 with three candidates of which the first and third
match the scope. -/
theorem C8_retriever_scoping_witness :
    getRelevantDocuments
        [⟨"a", some "u1", some "d1"⟩, ⟨"b", some "u2", some "d1"⟩,
         ⟨"c", some "u1", some "d2"⟩] "u1" ["d1", "d2"]
      = (([⟨"a", some "u1", some "d1"⟩, ⟨"b", some "u2", some "d1"⟩,
           ⟨"c", some "u1", some "d2"⟩].filter
            (scopeMatches "u1" ["d1", "d2"])).take 20, false)
    ∧ (getRelevantDocuments
        [⟨"a", some "u1", some "d1"⟩, ⟨"b", some "u2", some "d1"⟩,
         ⟨"c", some "u1", some "d2"⟩] "u1" ["d1", "d2"]).1.length ≤ 20 :=
  C8_retriever_scoping
    [⟨"a", some "u1", some "d1"⟩, ⟨"b", some "u2", some "d1"⟩,
     ⟨"c", some "u1", some "d2"⟩] "u1" ["d1", "d2"] (by decide)

theorem jsTrim_empty : jsTrim "" = "" := rfl

/-- Trimming then dropping empties equals dropping empties, trimming,
and dropping the newly emptied entries: the bridge between the two
`normalizedArray` implementations on array inputs. -/
theorem trim_filter_comm (l : List String) :
    (l.map jsTrim).filter (fun s => s != "")
      = ((l.filter (fun s => s != "")).map jsTrim).filter (fun s => s != "") := by
  induction l with
  | nil => rfl
  | cons a t ih =>
    by_cases h : a = ""
    · subst h
      simpa [List.filter_cons, jsTrim_empty] using ih
    · have hb : (a != "") = true := by simpa using h
      by_cases h2 : (jsTrim a != "") = true
      · simp [List.filter_cons, hb, h2, ih]
      · simp [List.filter_cons, hb, h2, ih]

/-- C10 counterexample: on the array with the single element
"  Python " the two copies of `normalizedArray` disagree — the main
route trims, the second copy does not — so they are not extensionally
equal. -/
theorem C10_counterexample :
    normalizedArray (some (Json.arr [Json.str "  Python "])) = ["Python"]
    ∧ normalizedArray003 (some (Json.arr [Json.str "  Python "])) = ["  Python "]
    ∧ normalizedArray (some (Json.arr [Json.str "  Python "]))
      ≠ normalizedArray003 (some (Json.arr [Json.str "  Python "])) :=
  ⟨by decide, by decide, by decide⟩

/-- C10 amended: the two implementations agree on every non-array input;
on array inputs the main route's result is the second copy's result with
each element trimmed and the elements that trim to empty dropped (so
they differ exactly on array elements carrying surrounding whitespace). -/
theorem C10_coercion_relation (v : Option Json) :
    ((∀ xs, v ≠ some (Json.arr xs)) → normalizedArray v = normalizedArray003 v)
    ∧ (∀ xs, v = some (Json.arr xs) →
        normalizedArray v
          = ((normalizedArray003 v).map jsTrim).filter (fun s => s != "")) := by
  constructor
  · intro h
    match v with
    | none => rfl
    | some Json.null => rfl
    | some (Json.bool b) => rfl
    | some (Json.num n) => rfl
    | some (Json.str s) => rfl
    | some (Json.obj fields) => rfl
    | some (Json.arr xs) => exact absurd rfl (h xs)
  · intro xs hv
    subst hv
    show (xs.map (fun item => jsTrim (jsToString item))).filter (fun s => s != "")
      = (((xs.map (fun item => jsToString item)).filter (fun s => s != "")).map
          jsTrim).filter (fun s => s != "")
    rw [← trim_filter_comm]
    rw [List.map_map]
    rfl

/-- Witness for C10's amended relation: a non-array input where the two
copies agree, and an array input exhibiting the trim relation. -/
theorem C10_coercion_relation_witness :
    normalizedArray (some (Json.str " x "))
      = normalizedArray003 (some (Json.str " x "))
    ∧ normalizedArray (some (Json.arr [Json.str " x "]))
      = ((normalizedArray003 (some (Json.arr [Json.str " x "]))).map
          jsTrim).filter (fun s => s != "") :=
  ⟨(C10_coercion_relation (some (Json.str " x "))).1 (fun xs h => by simp at h),
   (C10_coercion_relation (some (Json.arr [Json.str " x "]))).2 [Json.str " x "] rfl⟩
